import Mathlib

/-!
Verification of the graph-configuration pipeline of the Xyzen service
(`app/schemas/graph_config.py`, `app/agents/graph/canonicalizer.py`,
`app/agents/graph/validator.py`, `app/agents/graph/upgrader.py`,
`app/agents/factory.py`, `app/agents/components/__init__.py`).

The Python data model is embedded shallowly: pydantic models become Lean
structures, `Any`-typed JSON payloads become the inductive `PyVal`,
machine integers become `Int`/`Nat`, and the pydantic `Field` bounds
(`ge`/`le`/`min_length`) become explicit `Valid` predicates.  Python
string comparison is by Unicode code points, which we realise by mapping
a string to the list of its code points (`strKey`) and comparing those
lists lexicographically; this is order-isomorphic to Python's `str` order.
-/

/-- JSON-like Python value: the shallow embedding of `Any`-typed payloads
(predicate values, node config payloads, `ui` blobs).  Python floats are not
modelled; none of the verified code paths computes with them. -/
inductive PyVal where
  | null : PyVal
  | bool (b : Bool) : PyVal
  | int (n : Int) : PyVal
  | str (s : String) : PyVal
  | list (xs : List PyVal) : PyVal
  | dict (kvs : List (String × PyVal)) : PyVal

/-- Code-point key of a string; Python compares `str` values by exactly
this sequence. -/
def strKey (s : String) : List Nat := s.data.map (fun c => c.toNat)

/-- Python `<=` on strings, embedded through the code-point key. -/
def strLe (a b : String) : Prop := strKey a ≤ strKey b

instance : DecidableRel strLe := fun a b => inferInstanceAs (Decidable (strKey a ≤ strKey b))

instance : IsTotal String strLe := ⟨fun a b => le_total (strKey a) (strKey b)⟩

instance : IsTrans String strLe := ⟨fun _ _ _ h₁ h₂ => le_trans h₁ h₂⟩

theorem strKey_injective : Function.Injective strKey := by
  intro a b h
  apply String.ext
  have : Function.Injective (fun c : Char => c.toNat) := by
    intro c₁ c₂ hc
    exact Char.ext (UInt32.toNat.inj hc)
  exact List.map_injective_iff.mpr this h

instance : IsAntisymm String strLe := ⟨fun _ _ h₁ h₂ => strKey_injective (le_antisymm h₁ h₂)⟩

/-- Join rendered items with the default `json.dumps` item separator. -/
def commaJoin : List String → String
  | [] => ""
  | [x] => x
  | x :: xs => x ++ ", " ++ commaJoin xs

/-- Single lowercase hex digit. -/
def hexDigit (n : Nat) : Char :=
  if n < 10 then Char.ofNat (48 + n) else Char.ofNat (87 + n)

/-- Four-digit lowercase hex rendering used by `\uXXXX` escapes. -/
def hex4 (n : Nat) : List Char :=
  [hexDigit (n / 4096 % 16), hexDigit (n / 256 % 16), hexDigit (n / 16 % 16), hexDigit (n % 16)]

/-- Escape one character the way CPython's `json.dumps` (with the default
`ensure_ascii=True`) escapes characters inside a string literal. -/
def escapeJsonChar (c : Char) : List Char :=
  if c = '\\' then ['\\', '\\']
  else if c = '"' then ['\\', '"']
  else if c = '\n' then ['\\', 'n']
  else if c = '\r' then ['\\', 'r']
  else if c = '\t' then ['\\', 't']
  else if c.toNat = 8 then ['\\', 'b']
  else if c.toNat = 12 then ['\\', 'f']
  else if c.toNat < 32 ∨ 126 < c.toNat then
    if c.toNat ≤ 65535 then '\\' :: 'u' :: hex4 c.toNat
    else
      let v := c.toNat - 65536
      '\\' :: 'u' :: hex4 (55296 + v / 1024) ++ '\\' :: 'u' :: hex4 (56320 + v % 1024)
  else [c]

/-- JSON string literal for `s`, as produced by `json.dumps`. -/
def pyJsonQuote (s : String) : String :=
  "\"" ++ String.mk (s.data.flatMap escapeJsonChar) ++ "\""

/-- Embedding of `json.dumps(value, sort_keys=True, default=str)` on `PyVal`
payloads: object keys are rendered in sorted (code-point) order. -/
def dumpsVal : PyVal → String
  | .null => "null"
  | .bool true => "true"
  | .bool false => "false"
  | .int n => toString n
  | .str s => pyJsonQuote s
  | .list xs => "[" ++ commaJoin (xs.attach.map (fun x => dumpsVal x.1)) ++ "]"
  | .dict kvs =>
      "\x7b" ++
        commaJoin
          ((List.insertionSort (fun a b => strLe a.1 b.1)
              (kvs.attach.map (fun kv => (kv.1.1, dumpsVal kv.1.2)))).map
            (fun kv => pyJsonQuote kv.1 ++ ": " ++ kv.2)) ++
        "\x7d"
decreasing_by
  · have h := List.sizeOf_lt_of_mem x.2
    simp only [PyVal.list.sizeOf_spec]
    omega
  · have h := List.sizeOf_lt_of_mem kv.2
    have h2 : sizeOf kv.1.2 < sizeOf kv.1 := by
      obtain ⟨a, b⟩ := kv.1
      simp only [Prod.mk.sizeOf_spec]
      omega
    simp only [PyVal.dict.sizeOf_spec]
    omega

/-- Python `repr` of a list of (quote-free) identifier strings, as it appears
interpolated into validator messages, e.g. `['a', 'b']`. -/
def pyStrListRepr (xs : List String) : String :=
  "[" ++ commaJoin (xs.map (fun s => "'" ++ s ++ "'")) ++ "]"

/-! ## Data model (`app/schemas/graph_config.py`) -/

/-- `StateFieldType` enumeration. -/
inductive StateFieldType where
  | string | int | float | bool | list | dict | any
deriving DecidableEq

/-- `StateReducerType` enumeration. -/
inductive StateReducerType where
  | replace | add_messages
deriving DecidableEq

/-- `BuiltinEdgeCondition` enumeration. -/
inductive BuiltinEdgeCondition where
  | has_tool_calls | no_tool_calls
deriving DecidableEq

/-- String value of a `BuiltinEdgeCondition` member. -/
def BuiltinEdgeCondition.value : BuiltinEdgeCondition → String
  | .has_tool_calls => "has_tool_calls"
  | .no_tool_calls => "no_tool_calls"

/-- `PredicateOperator` enumeration. -/
inductive PredicateOperator where
  | eq | neq | truthy | falsy
deriving DecidableEq

/-- String value of a `PredicateOperator` member. -/
def PredicateOperator.value : PredicateOperator → String
  | .eq => "eq"
  | .neq => "neq"
  | .truthy => "truthy"
  | .falsy => "falsy"

/-- `StateFieldSchema`. -/
structure StateFieldSchema where
  type : StateFieldType
  description : Option String := none
  default : PyVal := .null

/-- `GraphStateConfig`; `state_schema` and `reducers` are Python dicts,
embedded as insertion-ordered association lists. -/
structure GraphStateConfig where
  state_schema : List (String × StateFieldSchema) := []
  reducers : List (String × StateReducerType) := []

/-- `GraphExecutionLimits`.  The pydantic bounds are in
`GraphExecutionLimits.Valid`. -/
structure GraphExecutionLimits where
  max_time_s : Int := 300
  max_steps : Int := 128
  max_concurrency : Int := 10

/-- Field bounds declared on `GraphExecutionLimits`
(`ge=1, le=3600` / `ge=1, le=100000` / `ge=1, le=256`); every value pydantic
accepts (hence every parser-produced value) satisfies them. -/
def GraphExecutionLimits.Valid (l : GraphExecutionLimits) : Prop :=
  1 ≤ l.max_time_s ∧ l.max_time_s ≤ 3600 ∧
  1 ≤ l.max_steps ∧ l.max_steps ≤ 100000 ∧
  1 ≤ l.max_concurrency ∧ l.max_concurrency ≤ 256

instance (l : GraphExecutionLimits) : Decidable l.Valid := by
  unfold GraphExecutionLimits.Valid; infer_instance

/-- `ModelDependencyRef`. -/
structure ModelDependencyRef where
  key : String
  provider : Option String := none
  version : Option String := none

/-- `PromptDependencyRef`. -/
structure PromptDependencyRef where
  key : String
  version : Option String := none

/-- `ComponentDependencyRef`. -/
structure ComponentDependencyRef where
  key : String
  version : String := "*"

/-- `GraphDeps`. -/
structure GraphDeps where
  models : List ModelDependencyRef := []
  tools : List String := []
  prompts : List PromptDependencyRef := []
  components : List ComponentDependencyRef := []

/-- `GraphMetadata`. -/
structure GraphMetadata where
  display_name : Option String := none
  description : Option String := none
  tags : List String := []
  agent_version : Option String := none

/-- Graph node (the tagged union `GraphNodeConfig` of the schema).  The
discriminator `kind` is one of `llm`/`tool`/`transform`/`component`; the
kind-specific config is an opaque JSON payload: the canonicalizer and the
validator never inspect it, they only carry it through. -/
structure GraphNodeConfig where
  id : String
  kind : String
  name : String
  description : Option String := none
  reads : List String := []
  writes : List String := []
  config : PyVal := .dict []

/-- `EdgePredicate`. -/
structure EdgePredicate where
  state_path : String
  operator : PredicateOperator
  value : PyVal := .null

/-- Guard of an edge: a built-in condition or a custom predicate
(the `when` union of `GraphEdgeConfig`). -/
inductive EdgeWhen where
  | builtin (c : BuiltinEdgeCondition) : EdgeWhen
  | predicate (p : EdgePredicate) : EdgeWhen

/-- `GraphEdgeConfig`. -/
structure GraphEdgeConfig where
  from_node : String
  to_node : String
  when : Option EdgeWhen := none
  priority : Int := 0
  label : Option String := none

/-- `GraphIR`. -/
structure GraphIR where
  nodes : List GraphNodeConfig
  edges : List GraphEdgeConfig
  entrypoints : List String

/-- `GraphConfig`. -/
structure GraphConfig where
  schema_version : String := "3.0"
  key : String
  revision : Int := 1
  graph : GraphIR
  state : GraphStateConfig := {}
  deps : Option GraphDeps := none
  limits : GraphExecutionLimits := {}
  prompt_config : Option PyVal := none
  metadata : Option GraphMetadata := none
  ui : Option PyVal := none

/-- Pydantic-enforced constraints of one node (`min_length=1` on `id` and
`name`, and the closed `kind` discriminator). -/
def GraphNodeConfig.Valid (n : GraphNodeConfig) : Prop :=
  n.id ≠ "" ∧ n.name ≠ "" ∧ n.kind ∈ (["llm", "tool", "transform", "component"] : List String)

instance (n : GraphNodeConfig) : Decidable n.Valid := by
  unfold GraphNodeConfig.Valid; infer_instance

/-- Constraint pydantic places on an edge guard: a custom predicate carries a
non-empty `state_path` (`min_length=1`). -/
def edgeWhenOk : Option EdgeWhen → Prop
  | some (.predicate p) => p.state_path ≠ ""
  | _ => True

instance : (w : Option EdgeWhen) → Decidable (edgeWhenOk w)
  | none => .isTrue trivial
  | some (.builtin _) => .isTrue trivial
  | some (.predicate p) => inferInstanceAs (Decidable (p.state_path ≠ ""))

/-- Pydantic-enforced constraints of one edge (`min_length=1` endpoints and
on a predicate's `state_path`). -/
def GraphEdgeConfig.Valid (e : GraphEdgeConfig) : Prop :=
  e.from_node ≠ "" ∧ e.to_node ≠ "" ∧ edgeWhenOk e.when

instance (e : GraphEdgeConfig) : Decidable e.Valid := by
  unfold GraphEdgeConfig.Valid; infer_instance

/-- Pydantic-enforced constraints of `GraphIR` (`min_length=1` and the
uniqueness validator on `entrypoints`, and well-formed members). -/
def GraphIR.Valid (g : GraphIR) : Prop :=
  (∀ n ∈ g.nodes, n.Valid) ∧ (∀ e ∈ g.edges, e.Valid) ∧
    1 ≤ g.entrypoints.length ∧ g.entrypoints.Nodup

instance (g : GraphIR) : Decidable g.Valid := by
  unfold GraphIR.Valid; infer_instance

/-- Pydantic-enforced constraints of a whole `GraphConfig`: exactly the
facts guaranteed for any value `parse_graph_config` can return. -/
def GraphConfig.Valid (c : GraphConfig) : Prop :=
  c.schema_version = "3.0" ∧ c.key ≠ "" ∧ 1 ≤ c.revision ∧ c.graph.Valid ∧ c.limits.Valid

instance (c : GraphConfig) : Decidable c.Valid := by
  unfold GraphConfig.Valid; infer_instance

/-! ## Canonicalizer (`app/agents/graph/canonicalizer.py`) -/

/-- Translation of `_edge_when_sort_key`: the guard component of the edge
sort key.  Tag `"0"` marks an absent guard, `"1"` a built-in condition,
`"2"` a custom predicate; the predicate's value is rendered as sorted-key
JSON. -/
def edgeWhenSortKey : Option EdgeWhen → String × String × String × String
  | none => ("0", "", "", "")
  | some (.builtin c) => ("1", c.value, "", "")
  | some (.predicate p) => ("2", p.state_path, p.operator.value, dumpsVal p.value)

/-- Carrier of `_edge_sort_key`'s comparison: the lexicographic product of
the seven key components, with strings embedded via their code-point key
(order-isomorphic to Python's tuple/str comparison). -/
abbrev EdgeSortKey :=
  List Nat ×ₗ Int ×ₗ List Nat ×ₗ List Nat ×ₗ List Nat ×ₗ List Nat ×ₗ List Nat

/-- Translation of `_edge_sort_key`:
`(from_node, -priority, when_type, when_path, when_operator, when_value, to_node)`. -/
def edgeSortKey (e : GraphEdgeConfig) : EdgeSortKey :=
  let k := edgeWhenSortKey e.when
  toLex (strKey e.from_node, toLex (-e.priority, toLex (strKey k.1,
    toLex (strKey k.2.1, toLex (strKey k.2.2.1, toLex (strKey k.2.2.2, strKey e.to_node))))))

/-- Order in which `canonicalize_graph_config` sorts edges. -/
def edgeLe (a b : GraphEdgeConfig) : Prop := edgeSortKey a ≤ edgeSortKey b

instance : DecidableRel edgeLe := fun a b => inferInstanceAs (Decidable (edgeSortKey a ≤ edgeSortKey b))

instance : IsTotal GraphEdgeConfig edgeLe := ⟨fun a b => le_total (edgeSortKey a) (edgeSortKey b)⟩

instance : IsTrans GraphEdgeConfig edgeLe := ⟨fun _ _ _ h₁ h₂ => le_trans h₁ h₂⟩

/-- Order in which `canonicalize_graph_config` sorts nodes (by `id`). -/
def nodeLe (a b : GraphNodeConfig) : Prop := strLe a.id b.id

instance : DecidableRel nodeLe := fun a b => inferInstanceAs (Decidable (strLe a.id b.id))

instance : IsTotal GraphNodeConfig nodeLe := ⟨fun a b => total_of strLe a.id b.id⟩

instance : IsTrans GraphNodeConfig nodeLe :=
  ⟨fun _ _ _ h₁ h₂ => Trans.trans (r := strLe) (s := strLe) h₁ h₂⟩

/-- Normalization of `deps` in `canonicalize_graph_config`:
`GraphDeps.model_validate(deps.model_dump())`.  On a well-typed `GraphDeps`
value this serialize/re-parse round trip returns an equal value, so its
shallow embedding is the identity. -/
def normalizeGraphDeps (d : GraphDeps) : GraphDeps := d

/-- Normalization of `metadata` in `canonicalize_graph_config`
(`model_validate ∘ model_dump` round trip, the identity on typed values). -/
def normalizeGraphMetadata (m : GraphMetadata) : GraphMetadata := m

/-- Translation of `canonicalize_graph_config`: sort nodes by id, edges by
`_edge_sort_key`, entrypoints lexicographically; round-trip the optional
`deps`/`metadata` sections; leave every other field unchanged.
`List.insertionSort` is a stable sort, hence agrees with Python's stable
`sorted` on every input. -/
def canonicalizeGraphConfig (config : GraphConfig) : GraphConfig :=
  { config with
    graph :=
      { config.graph with
        nodes := List.insertionSort nodeLe config.graph.nodes
        edges := List.insertionSort edgeLe config.graph.edges
        entrypoints := List.insertionSort strLe config.graph.entrypoints }
    deps := config.deps.map normalizeGraphDeps
    metadata := config.metadata.map normalizeGraphMetadata }

/-- C1: `canonicalize_graph_config` is idempotent. -/
theorem canonicalize_graph_config_idempotent (C : GraphConfig) :
    canonicalizeGraphConfig (canonicalizeGraphConfig C) = canonicalizeGraphConfig C := by
  obtain ⟨sv, key, rev, ⟨ns, es, eps⟩, st, deps, lims, pc, md, ui⟩ := C
  unfold canonicalizeGraphConfig
  have h1 := (List.sorted_insertionSort nodeLe ns).insertionSort_eq
  have h2 := (List.sorted_insertionSort edgeLe es).insertionSort_eq
  have h3 := (List.sorted_insertionSort strLe eps).insertionSort_eq
  simp only [h1, h2, h3]
  cases deps <;> cases md <;> rfl

/-- C5: canonicalization sorts edges by the composite key
`(from_node, -priority, when_type_tag, when_path, when_operator,
when_value_json, to_node)` — the output edge list is a permutation of the
input sorted under `edgeLe` (the order induced by `edgeSortKey`), with the
guard tags `"0"`/`"1"`/`"2"` for absent/built-in/predicate guards and the
predicate value rendered as sorted-key JSON; nodes are sorted by `id` and
entrypoints lexicographically. -/
theorem canonicalize_sorts_edges_by_composite_key (C : GraphConfig) :
    ((canonicalizeGraphConfig C).graph.edges.Perm C.graph.edges ∧
      List.Sorted edgeLe (canonicalizeGraphConfig C).graph.edges) ∧
    ((canonicalizeGraphConfig C).graph.nodes.Perm C.graph.nodes ∧
      List.Sorted nodeLe (canonicalizeGraphConfig C).graph.nodes) ∧
    ((canonicalizeGraphConfig C).graph.entrypoints.Perm C.graph.entrypoints ∧
      List.Sorted strLe (canonicalizeGraphConfig C).graph.entrypoints) ∧
    (edgeWhenSortKey none = ("0", "", "", "") ∧
      (∀ c : BuiltinEdgeCondition, edgeWhenSortKey (some (.builtin c)) = ("1", c.value, "", "")) ∧
      (∀ p : EdgePredicate,
        edgeWhenSortKey (some (.predicate p)) =
          ("2", p.state_path, p.operator.value, dumpsVal p.value))) ∧
    (∀ e : GraphEdgeConfig,
      edgeSortKey e =
        toLex (strKey e.from_node, toLex (-e.priority,
          toLex (strKey (edgeWhenSortKey e.when).1,
            toLex (strKey (edgeWhenSortKey e.when).2.1,
              toLex (strKey (edgeWhenSortKey e.when).2.2.1,
                toLex (strKey (edgeWhenSortKey e.when).2.2.2, strKey e.to_node))))))) := by
  refine ⟨⟨List.perm_insertionSort edgeLe _, List.sorted_insertionSort edgeLe _⟩,
    ⟨List.perm_insertionSort nodeLe _, List.sorted_insertionSort nodeLe _⟩,
    ⟨List.perm_insertionSort strLe _, List.sorted_insertionSort strLe _⟩,
    ⟨rfl, fun _ => rfl, fun _ => rfl⟩, fun _ => rfl⟩

/-- C10: `canonicalize_graph_config` only reorders the three graph lists
(the outputs are permutations of the inputs) and re-normalizes
`deps`/`metadata` through their schema round trip; `schema_version`, `key`,
`revision`, `state`, `limits`, `prompt_config` and `ui` come back
unchanged. -/
theorem canonicalize_frame (C : GraphConfig) :
    (canonicalizeGraphConfig C).graph.nodes.Perm C.graph.nodes ∧
    (canonicalizeGraphConfig C).graph.edges.Perm C.graph.edges ∧
    (canonicalizeGraphConfig C).graph.entrypoints.Perm C.graph.entrypoints ∧
    (canonicalizeGraphConfig C).schema_version = C.schema_version ∧
    (canonicalizeGraphConfig C).key = C.key ∧
    (canonicalizeGraphConfig C).revision = C.revision ∧
    (canonicalizeGraphConfig C).state = C.state ∧
    (canonicalizeGraphConfig C).limits = C.limits ∧
    (canonicalizeGraphConfig C).prompt_config = C.prompt_config ∧
    (canonicalizeGraphConfig C).ui = C.ui ∧
    (canonicalizeGraphConfig C).deps = C.deps.map normalizeGraphDeps ∧
    (canonicalizeGraphConfig C).metadata = C.metadata.map normalizeGraphMetadata :=
  ⟨List.perm_insertionSort nodeLe _, List.perm_insertionSort edgeLe _,
    List.perm_insertionSort strLe _, rfl, rfl, rfl, rfl, rfl, rfl, rfl, rfl, rfl⟩

/-! ## Validator (`app/agents/graph/validator.py`) -/

/-- `GraphConfigValidationError` record. -/
structure GraphConfigValidationError where
  code : String
  path : String
  message : String
deriving DecidableEq

/-- `_BUILTIN_STATE_PATHS`. -/
def builtinStatePaths : List String := ["messages", "execution_context"]

/-- Accumulator loop behind `dedupFirst`: keep an element when it has not
been seen yet. -/
def dedupFirstAux : List String → List String → List String
  | [], _ => []
  | x :: xs, seen =>
    if x ∈ seen then dedupFirstAux xs seen else x :: dedupFirstAux xs (x :: seen)

/-- First-occurrence de-duplication, the membership discipline of Python's
insertion-ordered sets/dicts used by the validator and upgrader. -/
def dedupFirst (l : List String) : List String := dedupFirstAux l []

/-- Successor map of `_build_adjacency`: an edge contributes to the
adjacency only when both endpoints are existing node ids. -/
def adjacencySucc (edges : List GraphEdgeConfig) (nodeIds : Finset String) (v : String) :
    Finset String :=
  ((edges.filter (fun e =>
      decide (e.from_node = v) && decide (e.from_node ∈ nodeIds) &&
        decide (e.to_node ∈ nodeIds))).map (fun e => e.to_node)).toFinset

/-- One breadth-first expansion step: the visited set plus all successors. -/
def expandReach (succ : String → Finset String) (s : Finset String) : Finset String :=
  s ∪ s.biUnion succ

/-- Iterated expansion.  With enough fuel this computes exactly the set the
source's BFS (`_reachable_from_entrypoints`) visits: each expansion adds all
successors of already-visited vertices, and every vertex the BFS can newly
enqueue is a graph node, so `|nodes|` rounds reach the closure. -/
def iterateReach (succ : String → Finset String) : Nat → Finset String → Finset String
  | 0, s => s
  | n + 1, s => iterateReach succ n (expandReach succ s)

/-- Visited set of `_reachable_from_entrypoints`' BFS. -/
def reachableFromEntrypoints (config : GraphConfig) : Finset String :=
  iterateReach
    (adjacencySucc config.graph.edges (config.graph.nodes.map (fun n => n.id)).toFinset)
    config.graph.nodes.length config.graph.entrypoints.toFinset

/-- Successor map of `_is_end_reachable`'s BFS: all non-`END` targets of the
node's outgoing edges (no membership filtering). -/
def endSucc (edges : List GraphEdgeConfig) (v : String) : Finset String :=
  ((edges.filter (fun e => decide (e.from_node = v) && decide (e.to_node ≠ "END"))).map
    (fun e => e.to_node)).toFinset

/-- Visited set of `_is_end_reachable`'s BFS; every vertex it can newly
enqueue is the target of some edge, so `|edges|` rounds reach the closure. -/
def endVisited (config : GraphConfig) : Finset String :=
  iterateReach (endSucc config.graph.edges) config.graph.edges.length
    config.graph.entrypoints.toFinset

/-- Translation of `_is_end_reachable`: the BFS returns `True` exactly when
some visited vertex has an outgoing edge to `END`. -/
def isEndReachable (config : GraphConfig) : Bool :=
  decide (∃ v ∈ endVisited config,
    ∃ e ∈ config.graph.edges, e.from_node = v ∧ e.to_node = "END")

/-- Translation of `_has_cycle`: the three-color DFS reports a cycle exactly
when some node is reachable from its own successors through the adjacency.
Each vertex ever reached is a graph node, so `|nodes|` expansion rounds
compute the closure. -/
def hasCycleB (config : GraphConfig) : Bool :=
  let ids := (config.graph.nodes.map (fun n => n.id)).toFinset
  let succ := adjacencySucc config.graph.edges ids
  decide (∃ v ∈ ids, v ∈ iterateReach succ config.graph.nodes.length (succ v))

/-- Sorted list of duplicated node ids, `sorted(duplicate_ids)` in the
source (a Python set rendered in sorted order). -/
def duplicateNodeIdsSorted (ids : List String) : List String :=
  List.insertionSort strLe (dedupFirst (ids.filter (fun id => 1 < ids.count id)))

/-- `DUPLICATE_NODE_ID` check. -/
def duplicateIdErrors (ids : List String) : List GraphConfigValidationError :=
  let dups := duplicateNodeIdsSorted ids
  if dups.isEmpty then []
  else
    [⟨"DUPLICATE_NODE_ID", "graph.nodes",
      "Node IDs must be unique. Duplicates: " ++ pyStrListRepr dups ++ "."⟩]

/-- `MULTIPLE_ENTRYPOINTS_UNSUPPORTED` check. -/
def entrypointCountErrors (entrypoints : List String) : List GraphConfigValidationError :=
  if entrypoints.length ≠ 1 then
    [⟨"MULTIPLE_ENTRYPOINTS_UNSUPPORTED", "graph.entrypoints",
      "Current runtime requires exactly one entrypoint."⟩]
  else []

/-- `ENTRYPOINT_NOT_FOUND` check (one error per missing entrypoint, indexed
paths). -/
def entrypointExistErrors (entrypoints : List String) (nodeIds : Finset String) :
    List GraphConfigValidationError :=
  entrypoints.enum.flatMap (fun p =>
    if p.2 ∈ nodeIds then []
    else
      [⟨"ENTRYPOINT_NOT_FOUND", "graph.entrypoints[" ++ toString p.1 ++ "]",
        "Entrypoint '" ++ p.2 ++ "' does not exist in graph.nodes."⟩])

/-- Per-edge endpoint and predicate checks of the main edge loop, for the
edge at index `idx`. -/
def edgeEndpointErrors (nodeIds : Finset String) (statePaths : List String) (idx : Nat)
    (e : GraphEdgeConfig) : List GraphConfigValidationError :=
  let edgePath := "graph.edges[" ++ toString idx ++ "]"
  (if e.from_node = "START" then
    [⟨"EDGE_FROM_START_FORBIDDEN", edgePath ++ ".from_node",
      "Uses graph.entrypoints[]; START edges are not allowed."⟩]
  else if e.from_node = "END" then
    [⟨"EDGE_FROM_END_FORBIDDEN", edgePath ++ ".from_node",
      "END cannot be used as an edge source."⟩]
  else if e.from_node ∉ nodeIds then
    [⟨"EDGE_SOURCE_NOT_FOUND", edgePath ++ ".from_node",
      "Edge source '" ++ e.from_node ++ "' does not exist."⟩]
  else []) ++
  (if e.to_node = "START" then
    [⟨"EDGE_TO_START_FORBIDDEN", edgePath ++ ".to_node",
      "START cannot be used as an edge target."⟩]
  else if e.to_node ≠ "END" ∧ e.to_node ∉ nodeIds then
    [⟨"EDGE_TARGET_NOT_FOUND", edgePath ++ ".to_node",
      "Edge target '" ++ e.to_node ++ "' does not exist."⟩]
  else []) ++
  (match e.when with
  | some (.predicate p) =>
    if p.state_path ∈ statePaths ∨ p.state_path ∈ builtinStatePaths then []
    else
      [⟨"PREDICATE_STATE_PATH_MISSING", edgePath ++ ".when.state_path",
        "Predicate state_path '" ++ p.state_path ++
          "' is missing in state.schema and is not a built-in state path."⟩]
  | _ => [])

/-- Guard classifying helpers of the per-source determinism loop. -/
def isDefaultEdge (e : GraphEdgeConfig) : Bool := e.when.isNone

/-- Tests for a `has_tool_calls` built-in guard. -/
def isHasToolEdge (e : GraphEdgeConfig) : Bool :=
  match e.when with
  | some (.builtin .has_tool_calls) => true
  | _ => false

/-- Tests for a `no_tool_calls` built-in guard. -/
def isNoToolEdge (e : GraphEdgeConfig) : Bool :=
  match e.when with
  | some (.builtin .no_tool_calls) => true
  | _ => false

/-- Tests for a custom predicate guard. -/
def isPredicateEdge (e : GraphEdgeConfig) : Bool :=
  match e.when with
  | some (.predicate _) => true
  | _ => false

/-- Indexed outgoing edges of a source, `edges_by_source[s]`. -/
def edgesFromSource (edges : List GraphEdgeConfig) (s : String) :
    List (Nat × GraphEdgeConfig) :=
  edges.enum.filter (fun p => decide (p.2.from_node = s))

/-- Determinism checks for the out-edges of one source node
(`MULTIPLE_DEFAULT_EDGES`, `DUPLICATE_HAS_TOOL_CALLS_EDGE`,
`DUPLICATE_NO_TOOL_CALLS_EDGE`, `MIXED_BUILTIN_AND_CUSTOM_ROUTING`). -/
def sourceRoutingErrors (edges : List GraphEdgeConfig) (s : String) :
    List GraphConfigValidationError :=
  let entries := edgesFromSource edges s
  let defaults := entries.filter (fun p => isDefaultEdge p.2)
  let hasT := entries.filter (fun p => isHasToolEdge p.2)
  let noT := entries.filter (fun p => isNoToolEdge p.2)
  let custom := entries.filter (fun p => isPredicateEdge p.2)
  (match defaults with
  | _ :: (i, _) :: _ =>
    [⟨"MULTIPLE_DEFAULT_EDGES", "graph.edges[" ++ toString i ++ "].when",
      "Node '" ++ s ++ "' has more than one unconditional edge."⟩]
  | _ => []) ++
  (match hasT with
  | _ :: (i, _) :: _ =>
    [⟨"DUPLICATE_HAS_TOOL_CALLS_EDGE", "graph.edges[" ++ toString i ++ "].when",
      "Node '" ++ s ++ "' has duplicate has_tool_calls edges."⟩]
  | _ => []) ++
  (match noT with
  | _ :: (i, _) :: _ =>
    [⟨"DUPLICATE_NO_TOOL_CALLS_EDGE", "graph.edges[" ++ toString i ++ "].when",
      "Node '" ++ s ++ "' has duplicate no_tool_calls edges."⟩]
  | _ => []) ++
  (match custom with
  | (i, _) :: _ =>
    if hasT.isEmpty && noT.isEmpty then []
    else
      [⟨"MIXED_BUILTIN_AND_CUSTOM_ROUTING", "graph.edges[" ++ toString i ++ "].when",
        "Node '" ++ s ++ "' mixes built-in tool routing and custom predicates."⟩]
  | [] => [])

/-- Sources in the iteration order of `edges_by_source` (a Python dict keyed
by first occurrence). -/
def sourcesInOrder (edges : List GraphEdgeConfig) : List String :=
  dedupFirst (edges.map (fun e => e.from_node))

/-- All determinism checks (the per-source loop). -/
def routingErrors (edges : List GraphEdgeConfig) : List GraphConfigValidationError :=
  (sourcesInOrder edges).flatMap (sourceRoutingErrors edges)

/-- Sorted unreachable node ids, `sorted(node_id_set - reachable)`. -/
def unreachableSorted (config : GraphConfig) : List String :=
  List.insertionSort strLe
    (dedupFirst ((config.graph.nodes.map (fun n => n.id)).filter
      (fun id => decide (id ∉ reachableFromEntrypoints config))))

/-- `UNREACHABLE_NODE` check. -/
def unreachableErrors (config : GraphConfig) : List GraphConfigValidationError :=
  if (unreachableSorted config).isEmpty then []
  else
    [⟨"UNREACHABLE_NODE", "graph.nodes",
      "Unreachable nodes from entrypoints: " ++ pyStrListRepr (unreachableSorted config) ++ "."⟩]

/-- `END_UNREACHABLE` check. -/
def endReachabilityErrors (config : GraphConfig) : List GraphConfigValidationError :=
  if isEndReachable config then []
  else
    [⟨"END_UNREACHABLE", "graph.edges",
      "No execution path from entrypoints can reach END."⟩]

/-- `CYCLE_LIMITS_REQUIRED` check. -/
def cycleLimitErrors (config : GraphConfig) : List GraphConfigValidationError :=
  if hasCycleB config then
    if config.limits.max_steps ≤ 0 ∧ config.limits.max_time_s ≤ 0 then
      [⟨"CYCLE_LIMITS_REQUIRED", "limits",
        "Graphs with cycles require max_steps or max_time_s limits."⟩]
    else []
  else []

/-- Translation of `validate_graph_config`: the accumulated error list in
source order. -/
def validateGraphConfig (config : GraphConfig) : List GraphConfigValidationError :=
  let nodes := config.graph.nodes
  let edges := config.graph.edges
  let entrypoints := config.graph.entrypoints
  if nodes.isEmpty then
    [⟨"EMPTY_GRAPH", "graph.nodes", "Graph must contain at least one node."⟩]
  else
    let ids := nodes.map (fun n => n.id)
    let idSet := ids.toFinset
    let statePaths := config.state.state_schema.map (fun p => p.1)
    duplicateIdErrors ids ++
      entrypointCountErrors entrypoints ++
      entrypointExistErrors entrypoints idSet ++
      edges.enum.flatMap (fun p => edgeEndpointErrors idSet statePaths p.1 p.2) ++
      routingErrors edges ++
      unreachableErrors config ++
      endReachabilityErrors config ++
      cycleLimitErrors config

/-- Error formatting of `ensure_valid_graph_config`'s `ValueError`. -/
def formatValidationErrors (errors : List GraphConfigValidationError) : String :=
  String.intercalate "; " (errors.map (fun e => e.code ++ " (" ++ e.path ++ "): " ++ e.message))

/-- Codes of an error list. -/
def errCodes (errors : List GraphConfigValidationError) : List String :=
  errors.map (fun e => e.code)

/-! ## Permutation invariance of the validator's error codes -/

theorem mem_dedupFirstAux {a : String} :
    ∀ {l seen : List String}, a ∈ dedupFirstAux l seen ↔ a ∈ l ∧ a ∉ seen := by
  intro l
  induction l with
  | nil => intro seen; simp [dedupFirstAux]
  | cons x xs ih =>
    intro seen
    by_cases hx : x ∈ seen
    · simp only [dedupFirstAux, if_pos hx, ih]
      constructor
      · rintro ⟨h1, h2⟩
        exact ⟨List.mem_cons_of_mem _ h1, h2⟩
      · rintro ⟨h1, h2⟩
        rcases List.mem_cons.mp h1 with rfl | h1
        · exact absurd hx h2
        · exact ⟨h1, h2⟩
    · simp only [dedupFirstAux, if_neg hx]
      constructor
      · intro hmem
        rcases List.mem_cons.mp hmem with rfl | hmem
        · exact ⟨List.mem_cons_self a xs, hx⟩
        · obtain ⟨h1, h2⟩ := ih.mp hmem
          exact ⟨List.mem_cons_of_mem _ h1, fun hs => h2 (List.mem_cons_of_mem _ hs)⟩
      · rintro ⟨h1, h2⟩
        rcases List.mem_cons.mp h1 with rfl | h1
        · exact List.mem_cons_self a _
        · by_cases hax : a = x
          · rw [hax]; exact List.mem_cons_self x _
          · refine List.mem_cons_of_mem _ (ih.mpr ⟨h1, fun hs => ?_⟩)
            rcases List.mem_cons.mp hs with rfl | hs
            · exact hax rfl
            · exact h2 hs

theorem mem_dedupFirst {a : String} {l : List String} : a ∈ dedupFirst l ↔ a ∈ l := by
  simp [dedupFirst, mem_dedupFirstAux]

theorem nodup_dedupFirstAux : ∀ {l seen : List String}, (dedupFirstAux l seen).Nodup := by
  intro l
  induction l with
  | nil => intro seen; simp [dedupFirstAux]
  | cons x xs ih =>
    intro seen
    by_cases hx : x ∈ seen
    · simpa [dedupFirstAux, if_pos hx] using ih
    · simp only [dedupFirstAux, if_neg hx]
      refine List.nodup_cons.mpr ⟨?_, ih⟩
      intro hmem
      exact (mem_dedupFirstAux.mp hmem).2 (List.mem_cons_self x seen)

theorem nodup_dedupFirst {l : List String} : (dedupFirst l).Nodup := nodup_dedupFirstAux

/-- Two lists with the same members have the same sorted de-duplication. -/
theorem insertionSort_dedupFirst_eq {l₁ l₂ : List String}
    (h : ∀ a, a ∈ l₁ ↔ a ∈ l₂) :
    List.insertionSort strLe (dedupFirst l₁) = List.insertionSort strLe (dedupFirst l₂) := by
  have hn₁ : (List.insertionSort strLe (dedupFirst l₁)).Nodup :=
    (List.perm_insertionSort strLe (dedupFirst l₁)).nodup_iff.mpr nodup_dedupFirst
  have hn₂ : (List.insertionSort strLe (dedupFirst l₂)).Nodup :=
    (List.perm_insertionSort strLe (dedupFirst l₂)).nodup_iff.mpr nodup_dedupFirst
  have hmem : ∀ a, a ∈ List.insertionSort strLe (dedupFirst l₁) ↔
      a ∈ List.insertionSort strLe (dedupFirst l₂) := by
    intro a
    rw [(List.perm_insertionSort strLe (dedupFirst l₁)).mem_iff,
      (List.perm_insertionSort strLe (dedupFirst l₂)).mem_iff,
      mem_dedupFirst, mem_dedupFirst]
    exact h a
  exact List.eq_of_perm_of_sorted ((List.perm_ext_iff_of_nodup hn₁ hn₂).mpr hmem)
    (List.sorted_insertionSort strLe _) (List.sorted_insertionSort strLe _)

/-- Two lists with the same members have permutation-related first-occurrence
de-duplications. -/
theorem dedupFirst_perm_of_mem_iff {l₁ l₂ : List String}
    (h : ∀ a, a ∈ l₁ ↔ a ∈ l₂) : (dedupFirst l₁).Perm (dedupFirst l₂) := by
  refine (List.perm_ext_iff_of_nodup nodup_dedupFirst nodup_dedupFirst).mpr ?_
  intro a
  rw [mem_dedupFirst, mem_dedupFirst]
  exact h a

theorem errCodes_append (a b : List GraphConfigValidationError) :
    errCodes (a ++ b) = errCodes a ++ errCodes b := List.map_append _ _ _

/-- Codes the per-edge checks emit, independent of the edge's index. -/
def edgeCheckCodes (nodeIds : Finset String) (statePaths : List String)
    (e : GraphEdgeConfig) : List String :=
  (if e.from_node = "START" then ["EDGE_FROM_START_FORBIDDEN"]
  else if e.from_node = "END" then ["EDGE_FROM_END_FORBIDDEN"]
  else if e.from_node ∉ nodeIds then ["EDGE_SOURCE_NOT_FOUND"]
  else []) ++
  (if e.to_node = "START" then ["EDGE_TO_START_FORBIDDEN"]
  else if e.to_node ≠ "END" ∧ e.to_node ∉ nodeIds then ["EDGE_TARGET_NOT_FOUND"]
  else []) ++
  (match e.when with
  | some (.predicate p) =>
    if p.state_path ∈ statePaths ∨ p.state_path ∈ builtinStatePaths then []
    else ["PREDICATE_STATE_PATH_MISSING"]
  | _ => [])

theorem errCodes_edgeEndpointErrors (nodeIds : Finset String) (statePaths : List String)
    (idx : Nat) (e : GraphEdgeConfig) :
    errCodes (edgeEndpointErrors nodeIds statePaths idx e) = edgeCheckCodes nodeIds statePaths e := by
  unfold edgeEndpointErrors edgeCheckCodes errCodes
  rw [List.map_append, List.map_append]
  refine congrArg₂ (· ++ ·) (congrArg₂ (· ++ ·) ?_ ?_) ?_
  · split_ifs <;> rfl
  · split_ifs <;> rfl
  · rcases e.when with _ | c | p
    · rfl
    · rfl
    · dsimp only
      split_ifs <;> rfl

theorem errCodes_flatMap_edgeEndpoint (nodeIds : Finset String) (statePaths : List String) :
    ∀ (n : Nat) (l : List GraphEdgeConfig),
      errCodes ((List.enumFrom n l).flatMap
          (fun p => edgeEndpointErrors nodeIds statePaths p.1 p.2)) =
        l.flatMap (edgeCheckCodes nodeIds statePaths) := by
  intro n l
  induction l generalizing n with
  | nil => rfl
  | cons e es ih =>
    simp only [List.enumFrom, List.flatMap_cons, errCodes_append,
      errCodes_edgeEndpointErrors, ih]

theorem errCodes_flatMap_entrypoint (nodeIds : Finset String) :
    ∀ (n : Nat) (l : List String),
      errCodes ((List.enumFrom n l).flatMap (fun p =>
          if p.2 ∈ nodeIds then ([] : List GraphConfigValidationError)
          else
            [⟨"ENTRYPOINT_NOT_FOUND", "graph.entrypoints[" ++ toString p.1 ++ "]",
              "Entrypoint '" ++ p.2 ++ "' does not exist in graph.nodes."⟩])) =
        l.flatMap (fun ep => if ep ∈ nodeIds then [] else ["ENTRYPOINT_NOT_FOUND"]) := by
  intro n l
  induction l generalizing n with
  | nil => rfl
  | cons ep eps ih =>
    simp only [List.enumFrom, List.flatMap_cons, errCodes_append, ih]
    by_cases h : ep ∈ nodeIds
    · simp [h, errCodes]
    · simp [h, errCodes]

/-- Codes the per-source determinism checks emit, as a function of the guard
counts among the source's out-edges. -/
def sourceCheckCodes (edges : List GraphEdgeConfig) (s : String) : List String :=
  let cDef := (edges.filter (fun e => isDefaultEdge e && decide (e.from_node = s))).length
  let cHas := (edges.filter (fun e => isHasToolEdge e && decide (e.from_node = s))).length
  let cNo := (edges.filter (fun e => isNoToolEdge e && decide (e.from_node = s))).length
  let cCus := (edges.filter (fun e => isPredicateEdge e && decide (e.from_node = s))).length
  (if 2 ≤ cDef then ["MULTIPLE_DEFAULT_EDGES"] else []) ++
  (if 2 ≤ cHas then ["DUPLICATE_HAS_TOOL_CALLS_EDGE"] else []) ++
  (if 2 ≤ cNo then ["DUPLICATE_NO_TOOL_CALLS_EDGE"] else []) ++
  (if 1 ≤ cCus then (if cHas = 0 ∧ cNo = 0 then [] else ["MIXED_BUILTIN_AND_CUSTOM_ROUTING"])
  else [])

theorem length_filter_enumFrom {α : Type} (q : α → Bool) :
    ∀ (n : Nat) (l : List α),
      ((List.enumFrom n l).filter (fun p => q p.2)).length = (l.filter q).length := by
  intro n l
  induction l generalizing n with
  | nil => rfl
  | cons e es ih =>
    by_cases hq : q e <;> simp [List.enumFrom, List.filter_cons, hq, ih]

theorem errCodes_matchTwo (l : List (Nat × GraphEdgeConfig)) (c m : String)
    (f : Nat → String) :
    errCodes (match l with
      | _ :: (i, _) :: _ => [⟨c, f i, m⟩]
      | _ => []) = if 2 ≤ l.length then [c] else [] := by
  match l with
  | [] => rfl
  | [x] => rfl
  | x :: (i, e) :: tl =>
    simp only [errCodes, List.map_cons, List.map_nil, List.length_cons]
    rw [if_pos (by omega)]

theorem errCodes_matchCustom (l hasT noT : List (Nat × GraphEdgeConfig)) (c m : String)
    (f : Nat → String) :
    errCodes (match l with
      | (i, _) :: _ => if hasT.isEmpty && noT.isEmpty then [] else [⟨c, f i, m⟩]
      | [] => []) =
      if 1 ≤ l.length then (if hasT.length = 0 ∧ noT.length = 0 then [] else [c])
      else [] := by
  match l with
  | [] => rfl
  | (i, e) :: tl =>
    simp only [List.length_cons]
    have hlen : 1 ≤ tl.length + 1 := by omega
    rw [if_pos hlen]
    rcases hasT with _ | ⟨a, as⟩ <;> rcases noT with _ | ⟨b, bs⟩ <;>
      simp [errCodes, List.isEmpty]

theorem errCodes_sourceRoutingErrors (edges : List GraphEdgeConfig) (s : String) :
    errCodes (sourceRoutingErrors edges s) = sourceCheckCodes edges s := by
  unfold sourceRoutingErrors sourceCheckCodes edgesFromSource
  simp only [List.filter_filter]
  rw [errCodes_append, errCodes_append, errCodes_append]
  rw [errCodes_matchTwo, errCodes_matchTwo, errCodes_matchTwo, errCodes_matchCustom]
  simp only [List.enum]
  simp only [length_filter_enumFrom (fun e => isDefaultEdge e && decide (e.from_node = s)) 0 edges,
    length_filter_enumFrom (fun e => isHasToolEdge e && decide (e.from_node = s)) 0 edges,
    length_filter_enumFrom (fun e => isNoToolEdge e && decide (e.from_node = s)) 0 edges,
    length_filter_enumFrom (fun e => isPredicateEdge e && decide (e.from_node = s)) 0 edges]

theorem errCodes_routingErrors (edges : List GraphEdgeConfig) :
    errCodes (routingErrors edges) =
      (sourcesInOrder edges).flatMap (fun s => sourceCheckCodes edges s) := by
  unfold routingErrors
  generalize sourcesInOrder edges = ss
  induction ss with
  | nil => rfl
  | cons s ss ih =>
    simp only [List.flatMap_cons, errCodes_append, errCodes_sourceRoutingErrors, ih]

theorem canonicalize_graph_nodes (C : GraphConfig) :
    (canonicalizeGraphConfig C).graph.nodes = List.insertionSort nodeLe C.graph.nodes := rfl

theorem canonicalize_graph_edges (C : GraphConfig) :
    (canonicalizeGraphConfig C).graph.edges = List.insertionSort edgeLe C.graph.edges := rfl

theorem canonicalize_graph_entrypoints (C : GraphConfig) :
    (canonicalizeGraphConfig C).graph.entrypoints =
      List.insertionSort strLe C.graph.entrypoints := rfl

theorem adjacencySucc_perm {es es' : List GraphEdgeConfig} (h : es.Perm es')
    (ids : Finset String) : adjacencySucc es ids = adjacencySucc es' ids := by
  funext v
  exact List.toFinset_eq_of_perm _ _ ((h.filter _).map _)

theorem endSucc_perm {es es' : List GraphEdgeConfig} (h : es.Perm es') :
    endSucc es = endSucc es' := by
  funext v
  exact List.toFinset_eq_of_perm _ _ ((h.filter _).map _)

theorem nodeIds_toFinset_canonicalize (C : GraphConfig) :
    ((canonicalizeGraphConfig C).graph.nodes.map (fun n => n.id)).toFinset =
      (C.graph.nodes.map (fun n => n.id)).toFinset :=
  List.toFinset_eq_of_perm _ _ ((List.perm_insertionSort nodeLe _).map _)

theorem reachableFromEntrypoints_canonicalize (C : GraphConfig) :
    reachableFromEntrypoints (canonicalizeGraphConfig C) = reachableFromEntrypoints C := by
  unfold reachableFromEntrypoints
  simp only [canonicalize_graph_nodes, canonicalize_graph_edges, canonicalize_graph_entrypoints]
  rw [List.toFinset_eq_of_perm _ _ ((List.perm_insertionSort nodeLe C.graph.nodes).map
        (fun n => n.id)),
    adjacencySucc_perm (List.perm_insertionSort edgeLe C.graph.edges),
    (List.perm_insertionSort nodeLe C.graph.nodes).length_eq,
    List.toFinset_eq_of_perm _ _ (List.perm_insertionSort strLe C.graph.entrypoints)]

theorem unreachableSorted_canonicalize (C : GraphConfig) :
    unreachableSorted (canonicalizeGraphConfig C) = unreachableSorted C := by
  unfold unreachableSorted
  rw [reachableFromEntrypoints_canonicalize]
  simp only [canonicalize_graph_nodes]
  apply insertionSort_dedupFirst_eq
  intro a
  exact (((List.perm_insertionSort nodeLe C.graph.nodes).map _).filter _).mem_iff

theorem unreachableErrors_canonicalize (C : GraphConfig) :
    unreachableErrors (canonicalizeGraphConfig C) = unreachableErrors C := by
  unfold unreachableErrors
  rw [unreachableSorted_canonicalize]

theorem endVisited_canonicalize (C : GraphConfig) :
    endVisited (canonicalizeGraphConfig C) = endVisited C := by
  unfold endVisited
  simp only [canonicalize_graph_edges, canonicalize_graph_entrypoints]
  rw [endSucc_perm (List.perm_insertionSort edgeLe C.graph.edges),
    (List.perm_insertionSort edgeLe C.graph.edges).length_eq,
    List.toFinset_eq_of_perm _ _ (List.perm_insertionSort strLe C.graph.entrypoints)]

theorem isEndReachable_canonicalize (C : GraphConfig) :
    isEndReachable (canonicalizeGraphConfig C) = isEndReachable C := by
  unfold isEndReachable
  refine decide_eq_decide.mpr ?_
  rw [endVisited_canonicalize]
  constructor
  · rintro ⟨v, hv, e, he, hfe⟩
    exact ⟨v, hv, e, (List.perm_insertionSort edgeLe C.graph.edges).mem_iff.mp he, hfe⟩
  · rintro ⟨v, hv, e, he, hfe⟩
    exact ⟨v, hv, e, (List.perm_insertionSort edgeLe C.graph.edges).mem_iff.mpr he, hfe⟩

theorem endReachabilityErrors_canonicalize (C : GraphConfig) :
    endReachabilityErrors (canonicalizeGraphConfig C) = endReachabilityErrors C := by
  unfold endReachabilityErrors
  rw [isEndReachable_canonicalize]

theorem hasCycleB_canonicalize (C : GraphConfig) :
    hasCycleB (canonicalizeGraphConfig C) = hasCycleB C := by
  unfold hasCycleB
  simp only [canonicalize_graph_nodes, canonicalize_graph_edges]
  refine decide_eq_decide.mpr ?_
  rw [List.toFinset_eq_of_perm _ _ ((List.perm_insertionSort nodeLe C.graph.nodes).map
      (fun n => n.id)),
    adjacencySucc_perm (List.perm_insertionSort edgeLe C.graph.edges),
    (List.perm_insertionSort nodeLe C.graph.nodes).length_eq]

theorem cycleLimitErrors_canonicalize (C : GraphConfig) :
    cycleLimitErrors (canonicalizeGraphConfig C) = cycleLimitErrors C := by
  unfold cycleLimitErrors
  rw [hasCycleB_canonicalize]
  rfl

theorem duplicateIdErrors_perm {l₁ l₂ : List String} (h : l₁.Perm l₂) :
    duplicateIdErrors l₁ = duplicateIdErrors l₂ := by
  unfold duplicateIdErrors
  have hsorted : duplicateNodeIdsSorted l₁ = duplicateNodeIdsSorted l₂ := by
    unfold duplicateNodeIdsSorted
    apply insertionSort_dedupFirst_eq
    intro a
    simp only [List.mem_filter, decide_eq_true_eq]
    rw [h.mem_iff, h.count_eq]
  rw [hsorted]

theorem entrypointCountErrors_perm {l₁ l₂ : List String} (h : l₁.Perm l₂) :
    entrypointCountErrors l₁ = entrypointCountErrors l₂ := by
  unfold entrypointCountErrors
  simp only [h.length_eq]

theorem sourceCheckCodes_perm {es es' : List GraphEdgeConfig} (h : es.Perm es') :
    ∀ s, sourceCheckCodes es s = sourceCheckCodes es' s := by
  intro s
  unfold sourceCheckCodes
  simp only [(h.filter _).length_eq]

theorem canonicalize_state_eq (C : GraphConfig) :
    (canonicalizeGraphConfig C).state = C.state := rfl

theorem errCodes_entrypointExistErrors (eps : List String) (S : Finset String) :
    errCodes (entrypointExistErrors eps S) =
      eps.flatMap (fun ep => if ep ∈ S then [] else ["ENTRYPOINT_NOT_FOUND"]) := by
  unfold entrypointExistErrors
  exact errCodes_flatMap_entrypoint S 0 eps

theorem errCodes_edgeLoop (S : Finset String) (sp : List String)
    (es : List GraphEdgeConfig) :
    errCodes (es.enum.flatMap (fun p => edgeEndpointErrors S sp p.1 p.2)) =
      es.flatMap (edgeCheckCodes S sp) :=
  errCodes_flatMap_edgeEndpoint S sp 0 es

/-- C2 (amended): canonicalization preserves the multiset of validation
error codes — for every `GraphConfig C`, the codes of
`validate_graph_config (canonicalize_graph_config C)` are a permutation of
the codes of `validate_graph_config C`.  (The full error records can differ:
paths embed positional edge indices, which canonicalization renumbers.) -/
theorem validate_canonicalize_codes_perm (C : GraphConfig) :
    (errCodes (validateGraphConfig (canonicalizeGraphConfig C))).Perm
      (errCodes (validateGraphConfig C)) := by
  have hns : (canonicalizeGraphConfig C).graph.nodes.Perm C.graph.nodes :=
    List.perm_insertionSort nodeLe _
  have hes : (canonicalizeGraphConfig C).graph.edges.Perm C.graph.edges :=
    List.perm_insertionSort edgeLe _
  have heps : (canonicalizeGraphConfig C).graph.entrypoints.Perm C.graph.entrypoints :=
    List.perm_insertionSort strLe _
  by_cases hemp : C.graph.nodes.isEmpty
  · have hemp' : (canonicalizeGraphConfig C).graph.nodes.isEmpty = true := by
      rw [hns.isEmpty_eq]; exact hemp
    unfold validateGraphConfig
    simp only [hemp, hemp', if_true]
    exact List.Perm.refl _
  · have hempF : C.graph.nodes.isEmpty = false := Bool.of_not_eq_true hemp
    have hempF' : (canonicalizeGraphConfig C).graph.nodes.isEmpty = false := by
      rw [hns.isEmpty_eq]; exact hempF
    unfold validateGraphConfig
    simp only [hempF, hempF', Bool.false_eq_true, if_false]
    rw [duplicateIdErrors_perm (hns.map (fun n => n.id)), entrypointCountErrors_perm heps,
      unreachableErrors_canonicalize, endReachabilityErrors_canonicalize,
      cycleLimitErrors_canonicalize]
    simp only [errCodes_append, errCodes_entrypointExistErrors, errCodes_routingErrors,
      errCodes_edgeLoop, canonicalize_state_eq, nodeIds_toFinset_canonicalize]
    simp only [sourceCheckCodes_perm hes]
    have hsources : (sourcesInOrder (canonicalizeGraphConfig C).graph.edges).Perm
        (sourcesInOrder C.graph.edges) :=
      dedupFirst_perm_of_mem_iff (fun a => (hes.map (fun e => e.from_node)).mem_iff)
    exact List.Perm.append (List.Perm.append (List.Perm.append (List.Perm.append
      (List.Perm.append (List.Perm.append (List.Perm.append (List.Perm.refl _)
        (List.Perm.refl _)) (heps.flatMap_right _)) (hes.flatMap_right _))
        (hsources.flatMap_right _)) (List.Perm.refl _)) (List.Perm.refl _)) (List.Perm.refl _)

/-! ## Where `CYCLE_LIMITS_REQUIRED` can appear -/

theorem cycle_code_notin_dup (ids : List String) :
    "CYCLE_LIMITS_REQUIRED" ∉ errCodes (duplicateIdErrors ids) := by
  unfold duplicateIdErrors
  by_cases h : (duplicateNodeIdsSorted ids).isEmpty <;> simp [h, errCodes]

theorem cycle_code_notin_epCount (eps : List String) :
    "CYCLE_LIMITS_REQUIRED" ∉ errCodes (entrypointCountErrors eps) := by
  unfold entrypointCountErrors
  split_ifs <;> simp [errCodes]

theorem cycle_code_notin_epExist (eps : List String) (S : Finset String) :
    "CYCLE_LIMITS_REQUIRED" ∉ errCodes (entrypointExistErrors eps S) := by
  rw [errCodes_entrypointExistErrors]
  simp only [List.mem_flatMap]
  rintro ⟨ep, _, hm⟩
  by_cases h : ep ∈ S
  · simp [h] at hm
  · simp [h] at hm

theorem cycle_code_notin_edgeCheck (S : Finset String) (sp : List String)
    (e : GraphEdgeConfig) : "CYCLE_LIMITS_REQUIRED" ∉ edgeCheckCodes S sp e := by
  unfold edgeCheckCodes
  intro h
  rcases List.mem_append.mp h with h | h
  · rcases List.mem_append.mp h with h | h
    · split_ifs at h <;> simp_all
    · split_ifs at h <;> simp_all
  · revert h
    rcases e.when with _ | c | p
    · simp
    · simp
    · dsimp only
      split_ifs <;> simp

theorem cycle_code_notin_edgeLoop (S : Finset String) (sp : List String)
    (es : List GraphEdgeConfig) :
    "CYCLE_LIMITS_REQUIRED" ∉
      errCodes (es.enum.flatMap (fun p => edgeEndpointErrors S sp p.1 p.2)) := by
  rw [errCodes_edgeLoop]
  simp only [List.mem_flatMap]
  rintro ⟨e, _, hm⟩
  exact cycle_code_notin_edgeCheck S sp e hm

theorem cycle_code_notin_sourceCheck (es : List GraphEdgeConfig) (s : String) :
    "CYCLE_LIMITS_REQUIRED" ∉ sourceCheckCodes es s := by
  unfold sourceCheckCodes
  intro h
  rcases List.mem_append.mp h with h | h
  · rcases List.mem_append.mp h with h | h
    · rcases List.mem_append.mp h with h | h
      · split_ifs at h <;> simp_all
      · split_ifs at h <;> simp_all
    · split_ifs at h <;> simp_all
  · split_ifs at h <;> simp_all

theorem cycle_code_notin_routing (es : List GraphEdgeConfig) :
    "CYCLE_LIMITS_REQUIRED" ∉ errCodes (routingErrors es) := by
  rw [errCodes_routingErrors]
  simp only [List.mem_flatMap]
  rintro ⟨s, _, hm⟩
  exact cycle_code_notin_sourceCheck es s hm

theorem cycle_code_notin_unreachable (C : GraphConfig) :
    "CYCLE_LIMITS_REQUIRED" ∉ errCodes (unreachableErrors C) := by
  unfold unreachableErrors
  split_ifs <;> simp [errCodes]

theorem cycle_code_notin_endReach (C : GraphConfig) :
    "CYCLE_LIMITS_REQUIRED" ∉ errCodes (endReachabilityErrors C) := by
  unfold endReachabilityErrors
  split_ifs <;> simp [errCodes]

theorem cycle_code_mem_cycleLimitErrors (C : GraphConfig) :
    "CYCLE_LIMITS_REQUIRED" ∈ errCodes (cycleLimitErrors C) ↔
      (hasCycleB C = true ∧ C.limits.max_steps ≤ 0 ∧ C.limits.max_time_s ≤ 0) := by
  unfold cycleLimitErrors
  by_cases h1 : hasCycleB C = true
  · by_cases h2 : C.limits.max_steps ≤ 0 ∧ C.limits.max_time_s ≤ 0
    · simp [h1, h2, errCodes]
    · simp only [h1, if_true, if_neg h2]
      simp [errCodes, h2]
  · simp [h1, errCodes]

/-- Membership of `CYCLE_LIMITS_REQUIRED` in the validator's output is
exactly the source's emission condition: a cycle plus both limits
non-positive. -/
theorem cycle_code_mem_iff (C : GraphConfig) :
    "CYCLE_LIMITS_REQUIRED" ∈ errCodes (validateGraphConfig C) ↔
      (hasCycleB C = true ∧ C.limits.max_steps ≤ 0 ∧ C.limits.max_time_s ≤ 0) := by
  by_cases hemp : C.graph.nodes.isEmpty
  · have hnil : C.graph.nodes = [] := List.isEmpty_iff.mp hemp
    have hcyc : hasCycleB C = false := by
      unfold hasCycleB
      rw [hnil]
      simp
    unfold validateGraphConfig
    simp [hemp, errCodes, hcyc]
  · have hempF : C.graph.nodes.isEmpty = false := Bool.of_not_eq_true hemp
    unfold validateGraphConfig
    simp only [hempF, Bool.false_eq_true, if_false]
    simp only [errCodes_append, List.mem_append]
    constructor
    · rintro (((((((h | h) | h) | h) | h) | h) | h) | h)
      · exact absurd h (cycle_code_notin_dup _)
      · exact absurd h (cycle_code_notin_epCount _)
      · exact absurd h (cycle_code_notin_epExist _ _)
      · exact absurd h (cycle_code_notin_edgeLoop _ _ _)
      · exact absurd h (cycle_code_notin_routing _)
      · exact absurd h (cycle_code_notin_unreachable _)
      · exact absurd h (cycle_code_notin_endReach _)
      · exact (cycle_code_mem_cycleLimitErrors C).mp h
    · intro h
      exact Or.inr ((cycle_code_mem_cycleLimitErrors C).mpr h)

/-! ## Concrete configurations used as witnesses and counterexamples -/

/-- Single LLM node `a`. -/
def nodeA : GraphNodeConfig := { id := "a", kind := "llm", name := "a" }

/-- Single tool node `b`. -/
def nodeB : GraphNodeConfig := { id := "b", kind := "tool", name := "b" }

/-- Config with two unconditional edges out of `a` whose order flips under
canonicalization (`"A" < "END"` in code-point order) while one of them
dangles; its error paths renumber. -/
def configEdgeReorder : GraphConfig :=
  { key := "k",
    graph :=
      { nodes := [nodeA],
        edges := [{ from_node := "a", to_node := "END" }, { from_node := "a", to_node := "A" }],
        entrypoints := ["a"] } }

/-- Valid cyclic ReAct-style config: `a -> b` on `has_tool_calls`,
`a -> END` on `no_tool_calls`, `b -> a` unconditionally. -/
def configCyclicReact : GraphConfig :=
  { key := "react",
    graph :=
      { nodes := [nodeA, nodeB],
        edges :=
          [{ from_node := "a", to_node := "b", when := some (.builtin .has_tool_calls) },
           { from_node := "a", to_node := "END", when := some (.builtin .no_tool_calls) },
           { from_node := "b", to_node := "a" }],
        entrypoints := ["a"] } }

/-- Minimal valid canonical config: one LLM node routed straight to `END`. -/
def configMinimalLLM : GraphConfig :=
  { key := "minimal",
    graph :=
      { nodes := [{ id := "agent", kind := "llm", name := "agent" }],
        edges := [{ from_node := "agent", to_node := "END" }],
        entrypoints := ["agent"] } }

/-- C2 counterexample: a well-typed config on which the full structured
error lists of `validate_graph_config` before and after canonicalization
differ (the dangling-target error moves from `graph.edges[1]` to
`graph.edges[0]`). -/
theorem validate_canonicalize_errors_differ :
    configEdgeReorder.Valid ∧
      validateGraphConfig (canonicalizeGraphConfig configEdgeReorder) ≠
        validateGraphConfig configEdgeReorder := by
  constructor
  · decide
  · decide

/-- C3: for every well-typed `GraphConfig` whose adjacency graph has a
cycle, `CYCLE_LIMITS_REQUIRED` is emitted exactly when
`max_steps ≤ 0 ∧ max_time_s ≤ 0`, and every cyclic config the validator
accepts has both limits positive (the schema bounds guarantee it). -/
theorem cycle_limits_required_spec (C : GraphConfig) (hv : C.Valid)
    (hc : hasCycleB C = true) :
    ("CYCLE_LIMITS_REQUIRED" ∈ errCodes (validateGraphConfig C) ↔
      (C.limits.max_steps ≤ 0 ∧ C.limits.max_time_s ≤ 0)) ∧
    (validateGraphConfig C = [] →
      0 < C.limits.max_steps ∧ 0 < C.limits.max_time_s) := by
  obtain ⟨-, -, -, -, ht1, -, hs1, -, -, -⟩ := hv
  constructor
  · rw [cycle_code_mem_iff]
    constructor
    · rintro ⟨-, h⟩; exact h
    · intro h; exact ⟨hc, h⟩
  · intro _
    omega

/-- C3 witness: the cyclic ReAct config is well typed, cyclic, accepted by
the validator, and has both limits positive. -/
theorem cycle_limits_required_spec_witness :
    configCyclicReact.Valid ∧ hasCycleB configCyclicReact = true ∧
      (("CYCLE_LIMITS_REQUIRED" ∈ errCodes (validateGraphConfig configCyclicReact) ↔
        (configCyclicReact.limits.max_steps ≤ 0 ∧
          configCyclicReact.limits.max_time_s ≤ 0)) ∧
      (validateGraphConfig configCyclicReact = [] →
        0 < configCyclicReact.limits.max_steps ∧
          0 < configCyclicReact.limits.max_time_s)) :=
  ⟨by decide, by decide, cycle_limits_required_spec configCyclicReact (by decide) (by decide)⟩

/-- C9: every well-typed `GraphConfig` — in particular every value
`parse_graph_config` can produce, since pydantic enforces the
`GraphExecutionLimits` bounds — has `max_steps ≥ 1` and `max_time_s ≥ 1`,
so the validator's `CYCLE_LIMITS_REQUIRED` branch is unreachable. -/
theorem parser_limits_cycle_error_unreachable (C : GraphConfig) (hv : C.Valid) :
    (1 ≤ C.limits.max_steps ∧ 1 ≤ C.limits.max_time_s) ∧
      "CYCLE_LIMITS_REQUIRED" ∉ errCodes (validateGraphConfig C) := by
  obtain ⟨-, -, -, -, ht1, -, hs1, -, -, -⟩ := hv
  refine ⟨⟨hs1, ht1⟩, ?_⟩
  rw [cycle_code_mem_iff]
  rintro ⟨-, hsteps, -⟩
  omega

/-- C9 witness: instantiated at the cyclic ReAct config. -/
theorem parser_limits_cycle_error_unreachable_witness :
    configCyclicReact.Valid ∧
      ((1 ≤ configCyclicReact.limits.max_steps ∧
        1 ≤ configCyclicReact.limits.max_time_s) ∧
      "CYCLE_LIMITS_REQUIRED" ∉ errCodes (validateGraphConfig configCyclicReact)) :=
  ⟨by decide, parser_limits_cycle_error_unreachable configCyclicReact (by decide)⟩

/-! ## Upgrader (`app/agents/graph/upgrader.py`) -/

/-- Python `str.startswith`, decided on the code-point sequence. -/
def strStartsWith (s pre : String) : Bool := pre.data.isPrefixOf s.data

/-- `GraphConfigMigrationWarning` record. -/
structure GraphConfigMigrationWarning where
  code : String
  path : String
  message : String
deriving DecidableEq

/-- `GraphConfigMigrationResult` record. -/
structure GraphConfigMigrationResult where
  source_version : String
  config : GraphConfig
  warnings : List GraphConfigMigrationWarning

/-- Payload of a raised `GraphConfigMigrationError`. -/
structure GraphConfigMigrationErrorInfo where
  code : String
  path : String
  message : String
deriving DecidableEq

/-- `detect_graph_config_version` applied to the serialized form of a typed
`GraphConfig`: `model_dump` always carries the config's `schema_version`
(a non-empty literal on valid configs), and the `version`/`"1.0"` fallbacks
concern only legacy raw payloads. -/
def detectVersionOfSerialized (C : GraphConfig) : String :=
  if C.schema_version ≠ "" then C.schema_version else "1.0"

/-- The `schema_version` 3.x branch of `upgrade_graph_config`, applied to
the serialized form of a typed `GraphConfig` (so `parse_graph_config ∘
model_dump` is the identity): canonicalize, validate, and return the
canonical config with no warnings; a validation failure raises
`INVALID_V3_CONFIG` carrying `ensure_valid_graph_config`'s message.
Payloads whose detected version is not 3.x take the legacy migration path,
which is out of scope here (`none`). -/
def upgradeGraphConfigV3 (C : GraphConfig) :
    Option (Except GraphConfigMigrationErrorInfo GraphConfigMigrationResult) :=
  let sv := detectVersionOfSerialized C
  if strStartsWith sv "3." then
    some
      (if (validateGraphConfig (canonicalizeGraphConfig C)).isEmpty then
        .ok ⟨sv, canonicalizeGraphConfig C, []⟩
      else
        .error ⟨"INVALID_V3_CONFIG", "graph_config",
          "Invalid graph configuration: " ++
            formatValidationErrors (validateGraphConfig (canonicalizeGraphConfig C))⟩)
  else none

/-- C4: upgrading the serialized form of a valid canonical v3 config returns
it unchanged, with no warnings and a source version starting with `"3."`. -/
theorem upgrade_v3_round_trip (C : GraphConfig) (hv : C.Valid)
    (hcanon : canonicalizeGraphConfig C = C) (hvalid : validateGraphConfig C = []) :
    ∃ sv, upgradeGraphConfigV3 C = some (.ok ⟨sv, C, []⟩) ∧
      strStartsWith sv "3." = true := by
  obtain ⟨hsv, -⟩ := hv
  refine ⟨"3.0", ?_, rfl⟩
  unfold upgradeGraphConfigV3 detectVersionOfSerialized
  rw [hcanon, hvalid, hsv]
  rfl

/-- C4 witness: the minimal canonical LLM config round-trips through the
upgrader unchanged. -/
theorem upgrade_v3_round_trip_witness :
    configMinimalLLM.Valid ∧ canonicalizeGraphConfig configMinimalLLM = configMinimalLLM ∧
      validateGraphConfig configMinimalLLM = [] ∧
      (∃ sv, upgradeGraphConfigV3 configMinimalLLM =
          some (.ok ⟨sv, configMinimalLLM, []⟩) ∧ strStartsWith sv "3." = true) :=
  ⟨by decide, rfl, by decide,
    upgrade_v3_round_trip configMinimalLLM (by decide) rfl (by decide)⟩

/-! ## Entrypoint derivation during v2-to-v3 migration (`_derive_entrypoints`) -/

/-- Modelled from the spec: the legacy v2 node schema
(`app/schemas/graph_config_legacy.py`) is not part of the analysed sources;
only the field `_derive_entrypoints` reads (`id`) is modelled. -/
structure LegacyGraphNodeMin where
  id : String
deriving DecidableEq

/-- Modelled from the spec: legacy v2 edge, restricted to the endpoint
fields `_derive_entrypoints` reads. -/
structure LegacyGraphEdgeMin where
  from_node : String
  to_node : String
deriving DecidableEq

/-- Modelled from the spec: legacy v2 config, restricted to the fields
`_derive_entrypoints` reads; an absent/empty `entry_point` is falsy in
Python, embedded as `none` resp. `some ""`. -/
structure LegacyGraphConfigMin where
  entry_point : Option String := none
  nodes : List LegacyGraphNodeMin := []
  edges : List LegacyGraphEdgeMin := []
deriving DecidableEq

/-- Targets of `START -> X` edges with existing targets, first occurrences
only (the source's `not in start_targets` check). -/
def startTargets (c : LegacyGraphConfigMin) (nodeIds : Finset String) : List String :=
  dedupFirst
    ((c.edges.filter (fun e =>
        decide (e.from_node = "START") && decide (e.to_node ∈ nodeIds))).map
      (fun e => e.to_node))

/-- `INVALID_ENTRYPOINT_FALLBACK` warning. -/
def invalidEntrypointWarning (ep : String) : GraphConfigMigrationWarning :=
  ⟨"INVALID_ENTRYPOINT_FALLBACK", "entry_point",
    "entry_point '" ++ ep ++ "' does not exist; deriving entrypoint from edges."⟩

/-- `MULTIPLE_START_TARGETS_PICK_FIRST` warning. -/
def multipleStartWarning (targets : List String) : GraphConfigMigrationWarning :=
  ⟨"MULTIPLE_START_TARGETS_PICK_FIRST", "edges",
    "Multiple START targets found " ++ pyStrListRepr targets ++ "; selected '" ++
      targets.headD "" ++ "'."⟩

/-- `MISSING_ENTRYPOINT_FALLBACK` warning. -/
def missingEntrypointWarning (d : String) : GraphConfigMigrationWarning :=
  ⟨"MISSING_ENTRYPOINT_FALLBACK", "entry_point",
    "No entrypoint found; defaulted to first node '" ++ d ++ "'."⟩

theorem headD_eq_head {α : Type} (d : α) :
    ∀ (l : List α) (h : l ≠ []), l.headD d = l.head h
  | [], h => absurd rfl h
  | _ :: _, _ => rfl

/-- Translation of `_derive_entrypoints`, returning the entrypoint list and
the warnings the call appends (the source mutates a shared warnings list).
The final fallback indexes `nodes[0]`; callers guarantee non-empty nodes,
and the embedding uses `headD` with a dummy node for totality. -/
def deriveEntrypoints (c : LegacyGraphConfigMin) (nodeIds : Finset String) :
    List String × List GraphConfigMigrationWarning :=
  let ep := c.entry_point.getD ""
  if ep ≠ "" ∧ ep ∈ nodeIds then ([ep], [])
  else
    let w0 : List GraphConfigMigrationWarning :=
      if ep ≠ "" then [invalidEntrypointWarning ep] else []
    match startTargets c nodeIds with
    | t :: rest =>
        ([t], w0 ++ (if rest.isEmpty then [] else [multipleStartWarning (t :: rest)]))
    | [] =>
        (([(c.nodes.headD ⟨""⟩).id]),
          w0 ++ [missingEntrypointWarning (c.nodes.headD ⟨""⟩).id])

/-- C6: the single entrypoint is derived in the order the spec states —
a valid `entry_point` wins with no warnings; otherwise the first `START -> X`
target with a `MULTIPLE_START_TARGETS_PICK_FIRST` warning exactly when
several distinct targets exist, preceded by `INVALID_ENTRYPOINT_FALLBACK`
when a non-empty `entry_point` named no existing node; otherwise the first
node's id with a `MISSING_ENTRYPOINT_FALLBACK` warning (again preceded by
the invalid-entrypoint warning when applicable). -/
theorem derive_entrypoints_order (c : LegacyGraphConfigMin) (nodeIds : Finset String)
    (hne : c.nodes ≠ []) :
    (∀ ep, c.entry_point = some ep → ep ≠ "" → ep ∈ nodeIds →
      deriveEntrypoints c nodeIds = ([ep], [])) ∧
    (¬ ((c.entry_point.getD "") ≠ "" ∧ (c.entry_point.getD "") ∈ nodeIds) →
      (∀ t rest, startTargets c nodeIds = t :: rest →
        deriveEntrypoints c nodeIds =
          ([t],
            (if (c.entry_point.getD "") ≠ "" then
              [invalidEntrypointWarning (c.entry_point.getD "")] else []) ++
            (if rest.isEmpty then [] else [multipleStartWarning (t :: rest)]))) ∧
      (startTargets c nodeIds = [] →
        deriveEntrypoints c nodeIds =
          ([(c.nodes.head hne).id],
            (if (c.entry_point.getD "") ≠ "" then
              [invalidEntrypointWarning (c.entry_point.getD "")] else []) ++
            [missingEntrypointWarning (c.nodes.head hne).id]))) := by
  have hheadD : c.nodes.headD ⟨""⟩ = c.nodes.head hne := headD_eq_head ⟨""⟩ c.nodes hne
  refine ⟨?_, ?_⟩
  · intro ep hep hne' hmem
    unfold deriveEntrypoints
    rw [hep]
    simp only [Option.getD_some]
    rw [if_pos ⟨hne', hmem⟩]
  · intro hnotvalid
    constructor
    · intro t rest hst
      unfold deriveEntrypoints
      rw [if_neg hnotvalid, hst]
    · intro hst
      unfold deriveEntrypoints
      rw [if_neg hnotvalid, hst, hheadD]

/-- Concrete legacy config: an invalid `entry_point` plus two distinct
`START` targets. -/
def legacyCfgW : LegacyGraphConfigMin :=
  { entry_point := some "ghost",
    nodes := [⟨"x"⟩, ⟨"y"⟩],
    edges := [⟨"START", "y"⟩, ⟨"START", "x"⟩, ⟨"START", "y"⟩] }

/-- C6 witness: on `legacyCfgW` the invalid-entrypoint warning precedes the
multiple-start-targets warning and the first `START` target is selected. -/
theorem derive_entrypoints_order_witness :
    deriveEntrypoints legacyCfgW ({"x", "y"} : Finset String) =
      (["y"], [invalidEntrypointWarning "ghost", multipleStartWarning ["y", "x"]]) := by
  have h := ((derive_entrypoints_order legacyCfgW ({"x", "y"} : Finset String)
    (by decide)).2 (by decide)).1 "y" ["x"] (by decide)
  exact h.trans (by decide)

/-! ## System-prompt injection (`app/agents/factory.py`, `_inject_system_prompt`) -/

/-- Python `dict.get(k)` on a `PyVal` object body. -/
def dictGet (kvs : List (String × PyVal)) (k : String) : Option PyVal :=
  match kvs with
  | [] => none
  | (k', v) :: tl => if k' = k then some v else dictGet tl k

/-- Python `d[k] = v`: replace in place (keeping the key's position) or
append when absent. -/
def dictSet (kvs : List (String × PyVal)) (k : String) (v : PyVal) :
    List (String × PyVal) :=
  match kvs with
  | [] => [(k, v)]
  | (k', v') :: tl => if k' = k then (k, v) :: tl else (k', v') :: dictSet tl k v

/-- Python `d.setdefault(k, default)`'s effect on the dict: unchanged when
the key exists, else the default is appended. -/
def dictSetdefault (kvs : List (String × PyVal)) (k : String) (d : PyVal) :
    List (String × PyVal) :=
  match dictGet kvs k with
  | some _ => kvs
  | none => kvs ++ [(k, d)]

/-- Python `d.get(f) == tag` for a string tag. -/
def isTagged (kvs : List (String × PyVal)) (field tag : String) : Bool :=
  match dictGet kvs field with
  | some (.str s) => decide (s = tag)
  | _ => false

/-- Python `str.strip()`: drop leading and trailing whitespace. -/
def pyStrip (s : String) : String :=
  String.mk (((s.data.dropWhile Char.isWhitespace).reverse.dropWhile
    Char.isWhitespace).reverse)

/-- Translation of `merge_layered_prompt` inside `_inject_system_prompt`:
strip both prompts; when both are non-empty, prepend the base and embed the
node prompt in a `<NODE_PROMPT>` block. -/
def mergeLayeredPrompt (basePrompt : String) (nodePrompt : Option PyVal) : String :=
  let base := pyStrip basePrompt
  let node := match nodePrompt with | some (.str s) => pyStrip s | _ => ""
  if base ≠ "" ∧ node ≠ "" then
    base ++ "\n\n<NODE_PROMPT>\n" ++ node ++ "\n</NODE_PROMPT>"
  else if base ≠ "" then base
  else node

/-- Component-node branch of the injection loop: layer the system prompt
into `config_overrides.system_prompt` underneath `field`
(`component_config` in the v2 shape, `config` in the canonical shape). -/
def injectComponentAt (sp : String) (nkvs : List (String × PyVal)) (field : String) :
    List (String × PyVal) :=
  let ccVal := (dictGet nkvs field).getD (.dict [])
  let nkvs1 := dictSetdefault nkvs field (.dict [])
  match ccVal with
  | .dict cc =>
    let ovVal := (dictGet cc "config_overrides").getD (.dict [])
    let cc1 := dictSetdefault cc "config_overrides" (.dict [])
    match ovVal with
    | .dict ov =>
      dictSet nkvs1 field (.dict (dictSet cc1 "config_overrides"
        (.dict (dictSet ov "system_prompt"
          (.str (mergeLayeredPrompt sp (dictGet ov "system_prompt")))))))
    | _ => dictSet nkvs1 field (.dict cc1)
  | _ => nkvs1

/-- LLM-node branch of the injection loop: layer the system prompt into
`prompt_template` underneath `field` (`llm_config` in the v2 shape,
`config` in the canonical shape). -/
def injectLlmAt (sp : String) (nkvs : List (String × PyVal)) (field : String) :
    List (String × PyVal) :=
  let lcVal := (dictGet nkvs field).getD (.dict [])
  let nkvs1 := dictSetdefault nkvs field (.dict [])
  match lcVal with
  | .dict lc =>
    dictSet nkvs1 field (.dict (dictSet lc "prompt_template"
      (.str (mergeLayeredPrompt sp (dictGet lc "prompt_template")))))
  | _ => nkvs1

/-- Per-node body of `_inject_system_prompt`'s loop: the four tag branches
(v2 `type` first, then canonical `kind`), other nodes unchanged. -/
def transformInjectNode (sp : String) (node : PyVal) : PyVal :=
  match node with
  | .dict nkvs =>
    if isTagged nkvs "type" "component" then .dict (injectComponentAt sp nkvs "component_config")
    else if isTagged nkvs "type" "llm" then .dict (injectLlmAt sp nkvs "llm_config")
    else if isTagged nkvs "kind" "component" then .dict (injectComponentAt sp nkvs "config")
    else if isTagged nkvs "kind" "llm" then .dict (injectLlmAt sp nkvs "config")
    else node
  | _ => node

/-- Translation of `_inject_system_prompt`: locate the node list (top-level
`nodes` if it is a list, else `graph.nodes`), transform every node, and
return the updated config; the source works on a deep copy, which a pure
function models by construction. -/
def injectSystemPrompt (configDict : PyVal) (sp : String) : PyVal :=
  match configDict with
  | .dict kvs =>
    match dictGet kvs "nodes" with
    | some (.list ns) => .dict (dictSet kvs "nodes" (.list (ns.map (transformInjectNode sp))))
    | _ =>
      match dictGet kvs "graph" with
      | some (.dict g) =>
        match dictGet g "nodes" with
        | some (.list ns) =>
          .dict (dictSet kvs "graph"
            (.dict (dictSet g "nodes" (.list (ns.map (transformInjectNode sp))))))
        | _ => configDict
      | _ => configDict
  | _ => configDict

theorem dictGet_dictSet_self (kvs : List (String × PyVal)) (k : String) (v : PyVal) :
    dictGet (dictSet kvs k v) k = some v := by
  induction kvs with
  | nil => simp [dictSet, dictGet]
  | cons kv tl ih =>
    obtain ⟨k', v'⟩ := kv
    by_cases h : k' = k
    · simp [dictSet, dictGet, h]
    · simp [dictSet, dictGet, h, ih]

/-- C7: injecting a system prompt transforms every node of the node list
(canonical `graph.nodes` shape shown), an LLM node's `prompt_template` and a
component node's `config_overrides.system_prompt` are both rewritten to the
layered prompt, and when both the injected prompt and the node's prior
prompt are non-empty the merged template starts with the (stripped) injected
prompt and embeds the prior prompt inside a `<NODE_PROMPT>` block.  The
source deep-copies its input, which the pure embedding models by
construction. -/
theorem inject_system_prompt_spec (sp : String) :
    (∀ kvs g ns, dictGet kvs "nodes" = none → dictGet kvs "graph" = some (.dict g) →
      dictGet g "nodes" = some (.list ns) →
      injectSystemPrompt (.dict kvs) sp =
        .dict (dictSet kvs "graph"
          (.dict (dictSet g "nodes" (.list (ns.map (transformInjectNode sp))))))) ∧
    (∀ nkvs lc, isTagged nkvs "type" "component" = false →
      isTagged nkvs "type" "llm" = false →
      isTagged nkvs "kind" "component" = false →
      isTagged nkvs "kind" "llm" = true →
      dictGet nkvs "config" = some (.dict lc) →
      transformInjectNode sp (.dict nkvs) =
        .dict (dictSet nkvs "config" (.dict (dictSet lc "prompt_template"
          (.str (mergeLayeredPrompt sp (dictGet lc "prompt_template"))))))) ∧
    (∀ nkvs cc ov, isTagged nkvs "type" "component" = false →
      isTagged nkvs "type" "llm" = false →
      isTagged nkvs "kind" "component" = true →
      dictGet nkvs "config" = some (.dict cc) →
      dictGet cc "config_overrides" = some (.dict ov) →
      transformInjectNode sp (.dict nkvs) =
        .dict (dictSet nkvs "config" (.dict (dictSet cc "config_overrides"
          (.dict (dictSet ov "system_prompt"
            (.str (mergeLayeredPrompt sp (dictGet ov "system_prompt"))))))))) ∧
    (∀ np, pyStrip sp ≠ "" → pyStrip np ≠ "" →
      strStartsWith (mergeLayeredPrompt sp (some (.str np))) (pyStrip sp) = true ∧
      "<NODE_PROMPT>".data <:+: (mergeLayeredPrompt sp (some (.str np))).data ∧
      (pyStrip np).data <:+: (mergeLayeredPrompt sp (some (.str np))).data) := by
  refine ⟨?_, ?_, ?_, ?_⟩
  · intro kvs g ns h1 h2 h3
    unfold injectSystemPrompt
    dsimp only
    rw [h1]
    dsimp only
    rw [h2]
    dsimp only
    rw [h3]
  · intro nkvs lc h1 h2 h3 h4 hcfg
    unfold transformInjectNode
    dsimp only
    rw [h1, h2, h3, h4]
    simp only [Bool.false_eq_true, if_false, if_true]
    unfold injectLlmAt dictSetdefault
    rw [hcfg]
    rfl
  · intro nkvs cc ov h1 h2 h3 hcfg hov
    unfold transformInjectNode
    dsimp only
    rw [h1, h2, h3]
    simp only [Bool.false_eq_true, if_false, if_true]
    unfold injectComponentAt dictSetdefault
    rw [hcfg]
    simp only [Option.getD_some]
    rw [hov]
    rfl
  · intro np hb hn
    unfold mergeLayeredPrompt
    simp only
    rw [if_pos ⟨hb, hn⟩]
    refine ⟨?_, ?_, ?_⟩
    · unfold strStartsWith
      simp only [String.data_append, List.isPrefixOf_iff_prefix, List.append_assoc]
      exact List.prefix_append _ _
    · refine ⟨(pyStrip sp).data ++ "\n\n".data,
        "\n".data ++ ((pyStrip np).data ++ "\n</NODE_PROMPT>".data), ?_⟩
      simp only [String.data_append, List.append_assoc]
      rfl
    · refine ⟨(pyStrip sp).data ++ "\n\n<NODE_PROMPT>\n".data, "\n</NODE_PROMPT>".data, ?_⟩
      simp only [String.data_append, List.append_assoc]

/-- Canonical-shaped raw config with one LLM node whose prompt is
`"Default"`. -/
def configRawPolicy : PyVal :=
  .dict [("schema_version", .str "3.0"), ("key", .str "k"),
    ("graph", .dict [("nodes", .list
      [.dict [("id", .str "agent"), ("kind", .str "llm"),
        ("config", .dict [("prompt_template", .str "Default")])]])])]

/-- C7 witness: injecting `"Policy"` over node prompt `"Default"` rewrites
the node's template to the layered prompt, which starts with `"Policy"`,
contains `"<NODE_PROMPT>"` and contains `"Default"`. -/
theorem inject_system_prompt_spec_witness :
    injectSystemPrompt configRawPolicy "Policy" =
      .dict [("schema_version", .str "3.0"), ("key", .str "k"),
        ("graph", .dict [("nodes", .list
          [.dict [("id", .str "agent"), ("kind", .str "llm"),
            ("config", .dict [("prompt_template",
              .str "Policy\n\n<NODE_PROMPT>\nDefault\n</NODE_PROMPT>")])]])])] ∧
    (pyStrip "Policy" ≠ "" ∧ pyStrip "Default" ≠ "") ∧
    (strStartsWith (mergeLayeredPrompt "Policy" (some (.str "Default")))
        (pyStrip "Policy") = true ∧
      "<NODE_PROMPT>".data <:+: (mergeLayeredPrompt "Policy" (some (.str "Default"))).data ∧
      (pyStrip "Default").data <:+:
        (mergeLayeredPrompt "Policy" (some (.str "Default"))).data) :=
  ⟨rfl, ⟨by decide, by decide⟩,
    (inject_system_prompt_spec "Policy").2.2.2 "Default" (by decide) (by decide)⟩

/-! ## Component registry (`app/agents/components/__init__.py`)

`ComponentRegistry.resolve` delegates constraint checking to the
`packaging` library.  The embedding models the plain-release fragment of
that library exactly and is explicitly three-valued everywhere else:

* `.release v` / `.parsed specs` — the string is in the modelled fragment
  (numeric `N[.N[.N]]` releases; comma-separated `==/!=/<=/>=/</>`
  specifiers with surrounding whitespace) and the modelled semantics agree
  with `packaging` on it;
* `.malformed` / `.invalid` — the string is certainly rejected by
  `packaging` (`Version`/`SpecifierSet` raise), so `resolve`'s `except`
  branch returns the found component: the classification under-approximates
  rejection, never calling a `packaging`-parseable string invalid;
* `.beyond` / `.unsupported` — the string may be `packaging`-parseable
  (pre-releases, epochs, wildcards, `~=`, `===`, four-component releases,
  …) but is outside the modelled fragment; on those inputs the embedded
  resolver abstains (returns `none`) and no theorem asserts anything.
-/

